import Mathlib

/-!
Verification of the record-mode deterministic-multithreading runtime
(`src/lib/runtime/record-runtime.cpp`).  The wrappers are shallowly
embedded: pure computations become Lean functions, native-call results
and scheduler wait results become explicit oracles, and the turn
scheduler's observable actions become event traces.
-/

namespace tern

/-- C `struct timespec`: `tv_sec` (signed `time_t`) and `tv_nsec` (signed `long`). -/
structure timespec where
  tv_sec : Int
  tv_nsec : Int
deriving DecidableEq, Repr

/-- `time_diff(start, end)` from record-runtime.cpp:149-159: subtract two
timespecs, borrowing one second when the nanosecond difference is negative. -/
def time_diff (start fin : timespec) : timespec :=
  if fin.tv_nsec - start.tv_nsec < 0 then
    { tv_sec := fin.tv_sec - start.tv_sec - 1
      tv_nsec := 1000000000 - start.tv_nsec + fin.tv_nsec }
  else
    { tv_sec := fin.tv_sec - start.tv_sec
      tv_nsec := fin.tv_nsec - start.tv_nsec }

/-- Maximum number of turns to wait (`MAX_REL` in `time2turn`). -/
def MAX_REL : Nat := 1000000

/-- `time2turn(uint64_t nsec)` (record-runtime.cpp:200-216).  If
`launch_idle_thread` is off, the function prints a warning and calls
`exit(1)`; this abort is modelled as `none`.  Otherwise it divides the
nanoseconds by `options::nanosec_per_turn` and caps the result at
`MAX_REL`. -/
def time2turn (launch_idle_thread : Bool) (nanosec_per_turn : Nat)
    (nsec : Nat) : Option Nat :=
  if !launch_idle_thread then
    none
  else
    let ret64 : Nat := nsec / nanosec_per_turn
    some (if ret64 > MAX_REL then MAX_REL else ret64)

/-- The signed 64-bit total nanoseconds `ns = tv_sec * 10^9 + tv_nsec`
computed in `relTimeToTurn` (record-runtime.cpp:222-223). -/
def totalNs (rt : timespec) : Int :=
  rt.tv_sec * 1000000000 + rt.tv_nsec

/-- The implicit conversion of the signed `int64_t ns` to the `uint64_t`
parameter of `time2turn`: reduction modulo 2^64. -/
def toUInt64Nat (ns : Int) : Nat :=
  (ns % (2 ^ 64)).toNat

/-- `RecorderRT::relTimeToTurn(const timespec *reltime)`
(record-runtime.cpp:218-230).  A null `reltime` yields 0.  Otherwise the
total nanoseconds go through `time2turn`, and a result below
`5 * nthread + 1` is raised to `5 * nthread + 1`.  `none` propagates the
`exit(1)` of `time2turn`. -/
def relTimeToTurn (launch_idle_thread : Bool) (nanosec_per_turn : Nat)
    (nthread : Nat) (reltime : Option timespec) : Option Nat :=
  match reltime with
  | none => some 0
  | some rt =>
    (time2turn launch_idle_thread nanosec_per_turn
        (toUInt64Nat (totalNs rt))).map
      (fun ret => if ret < 5 * nthread + 1 then 5 * nthread + 1 else ret)

/-! ## Barrier wrapper (`RecorderRT::pthreadBarrierWait`, record-runtime.cpp:872-930) -/

/-- `barrier_t`: bookkeeping entry of the barrier table (`barriers[barrier]`),
holding the declared `count` and the number `narrived` of threads that have
arrived so far. -/
structure barrier_t where
  count : Nat
  narrived : Nat
deriving DecidableEq, Repr

/-- glibc value of `PTHREAD_BARRIER_SERIAL_THREAD`. -/
def PTHREAD_BARRIER_SERIAL_THREAD : Int := -1

/-- Observable scheduler actions a barrier-wait invocation performs between
its `SCHED_INC_TURN` and its `SCHED_PUT_TURN`. -/
inductive BarAction where
  | signalAll
  | putTurn
  | getTurn
  | waitOnBarrier
deriving DecidableEq, Repr

/-- One deterministic-region invocation of `pthreadBarrierWait` on barrier
state `b` (record-runtime.cpp:900-929): increment `narrived`; the assertion
`narrived <= count` aborts (`none`) on overflow; when the caller is the last
arriver, reset `narrived` to 0, `signal(barrier, all=true)`, cycle the turn
(`putTurn` then `getTurn`) and return `PTHREAD_BARRIER_SERIAL_THREAD`;
otherwise `wait(barrier)` and return 0. -/
def pthreadBarrierWait (b : barrier_t) :
    Option (barrier_t × Int × List BarAction) :=
  let narrived := b.narrived + 1
  if b.count < narrived then
    none
  else if b.count = narrived then
    some ({ count := b.count, narrived := 0 },
          PTHREAD_BARRIER_SERIAL_THREAD,
          [.signalAll, .putTurn, .getTurn])
  else
    some ({ count := b.count, narrived := narrived }, 0, [.waitOnBarrier])

/-- A sequence of `k` barrier-wait arrivals on the same barrier, each executed
under the turn, collecting each caller's return value and actions. -/
def barrierRounds : Nat → barrier_t →
    Option (barrier_t × List (Int × List BarAction))
  | 0, b => some (b, [])
  | k + 1, b =>
    (pthreadBarrierWait b).bind fun r =>
      (barrierRounds k r.1).map fun s => (s.1, r.2 :: s.2)

/-! ## Mutex / semaphore helper loops (record-runtime.cpp:561-595, 1332-1377) -/

/-- Result of one native try-operation (`pthread_mutex_trylock`/
`pthread_rwlock_trywrlock`/`sem_trywait`): success, the expected busy
failure (`EBUSY`, resp. `-1` with `errno = EAGAIN`), or any other failure. -/
inductive TryR where
  | ok
  | busy
  | otherFailure
deriving DecidableEq, Repr

/-- Result of a scheduler-level `_S::wait(chan, timeout)`: woken by a signal
before the deadline, or the turn counter reached the deadline. -/
inductive WaitR where
  | ok
  | timedout
deriving DecidableEq, Repr

/-- `ETIMEDOUT` (linux). -/
def ETIMEDOUT : Nat := 110

/-- Outcome of a wrapper body: a return value, an assertion failure
(`assert(... && "failed sync calls are not yet supported!")` aborts the
process), or non-termination of the retry loop. -/
inductive HelperRes where
  | ret (r : Int)
  | assertAbort
  | diverge
deriving DecidableEq, Repr

/-- `RecorderRT::pthreadMutexLockHelper(mu, timeout)`
(record-runtime.cpp:561-571), driven by the oracle `tr`: each element gives
the outcome of the next `pthread_mutex_trylock` and, when that trylock is
busy, of the following `wait(mu, timeout)`.  A trylock outcome other than
success/`EBUSY` trips the assertion; a wait that returns `ETIMEDOUT` makes
the helper return `ETIMEDOUT`; a wait that returns OK retries the trylock. -/
def pthreadMutexLockHelper : List (TryR × WaitR) → HelperRes
  | [] => .diverge
  | (t, w) :: rest =>
    match t with
    | .ok => .ret 0
    | .otherFailure => .assertAbort
    | .busy =>
      match w with
      | .timedout => .ret (Int.ofNat ETIMEDOUT)
      | .ok => pthreadMutexLockHelper rest

/-- Deterministic-region body of `RecorderRT::pthreadMutexLock`
(record-runtime.cpp:639-644): run the lock helper (with an infinite
deadline), discard its return value, and return 0. -/
def pthreadMutexLock (tr : List (TryR × WaitR)) : HelperRes :=
  match pthreadMutexLockHelper tr with
  | .ret _ => .ret 0
  | .assertAbort => .assertAbort
  | .diverge => .diverge

/-- Deterministic-region body of `RecorderRT::pthreadMutexTimedLock` after
the deadline computation (record-runtime.cpp:692-699): the helper's return
value is the wrapper's return value. -/
def pthreadMutexTimedLock (tr : List (TryR × WaitR)) : HelperRes :=
  pthreadMutexLockHelper tr

/-- Outcome of `semTimedWait`: the returned value together with the final
`errno` (the code's `saved_err`, stored to `errno` after `SCHED_PUT_TURN`),
or an assertion abort, or divergence of the retry loop. -/
inductive SemRes where
  | ret (r : Int) (err : Nat)
  | assertAbort
  | diverge
deriving DecidableEq, Repr

/-- The `sem_trywait`/`_S::wait(sem, timeout)` loop of
`RecorderRT::semTimedWait` (record-runtime.cpp:1360-1376), driven by the
oracle `tr` as in `pthreadMutexLockHelper`: a `sem_trywait` failure with
`errno != EAGAIN` trips the assertion; a wait returning `ETIMEDOUT` breaks
out with `ret = -1` and `saved_err = ETIMEDOUT`; a successful trywait exits
the loop with `ret = 0` and `saved_err = 0`. -/
def semTimedWaitLoop : List (TryR × WaitR) → SemRes
  | [] => .diverge
  | (t, w) :: rest =>
    match t with
    | .ok => .ret 0 0
    | .otherFailure => .assertAbort
    | .busy =>
      match w with
      | .timedout => .ret (-1) ETIMEDOUT
      | .ok => semTimedWaitLoop rest

/-! ## Idle thread (`RecorderRT::idle_cond_wait`, record-runtime.cpp:257-269) -/

/-- What the idle thread does with the turn it holds. -/
inductive IdleAction where
  | idleThreadCondWait
  | putTurn
deriving DecidableEq, Repr

/-- `RecorderRT::idle_cond_wait`: after `getTurn` and `incTurnCount`, if the
run queue holds at least two threads (the idle thread plus at least one real
thread) call `_S::idleThreadCondWait()` — release the turn and block on the
internal condvar; otherwise just `_S::putTurn()`. -/
def idle_cond_wait (runq_size : Nat) : IdleAction :=
  if runq_size ≥ 2 then .idleThreadCondWait else .putTurn

/-! ## Native-call / scheduler-event traces of the release and try wrappers -/

/-- Native primitives invoked by the wrappers modelled as traces. -/
inductive NativeOp where
  | mutexUnlockOp
  | semPostOp
  | rwlockTryRdOp
  | rwlockTryWrOp
deriving DecidableEq, Repr

/-- Observable events of a wrapper's deterministic path, in program order. -/
inductive Ev where
  | getTurn
  | nativeCall (op : NativeOp)
  | signalChan (chan : Nat)
  | incTurnCount
  | logSync
  | putTurn
deriving DecidableEq, Repr

/-- Events of `sched_timer_end` / `SCHED_PUT_TURN`
(record-runtime.cpp:322-338): with `log_sync`, increment the turn counter,
append the log record, then `putTurn`; without, just increment and
`putTurn`. -/
def schedPutTurnEvents (log_sync : Bool) : List Ev :=
  if log_sync then [.incTurnCount, .logSync, .putTurn]
  else [.incTurnCount, .putTurn]

/-- Deterministic-region event trace of `RecorderRT::pthreadMutexUnlock`
(record-runtime.cpp:713-720): `getTurn`, native `pthread_mutex_unlock`,
`signal(mu)` while still holding the turn, then `SCHED_PUT_TURN`. -/
def pthreadMutexUnlockTrace (log_sync : Bool) (mu : Nat) : List Ev :=
  [.getTurn, .nativeCall .mutexUnlockOp, .signalChan mu] ++
    schedPutTurnEvents log_sync

/-- Deterministic-region event trace of `RecorderRT::semPost`
(record-runtime.cpp:1387-1392): `getTurn`, native `sem_post`,
`signal(sem)` while still holding the turn, then `SCHED_PUT_TURN`. -/
def semPostTrace (log_sync : Bool) (sem : Nat) : List Ev :=
  [.getTurn, .nativeCall .semPostOp, .signalChan sem] ++
    schedPutTurnEvents log_sync

/-- Deterministic-region event trace of
`RecorderRT::__pthread_rwlock_tryrdlock` (record-runtime.cpp:779-784): one
single native try-call — which the source performs with
`pthread_rwlock_trywrlock` (its comment: "FIXME now using wrlock for all
rdlock") — then `SCHED_PUT_TURN`; no scheduler wait. -/
def pthreadRWLockTryRdLockTrace (log_sync : Bool) : List Ev :=
  [.getTurn, .nativeCall .rwlockTryWrOp] ++ schedPutTurnEvents log_sync

/-- Deterministic-region event trace of
`RecorderRT::__pthread_rwlock_trywrlock` (record-runtime.cpp:795-800). -/
def pthreadRWLockTryWrLockTrace (log_sync : Bool) : List Ev :=
  [.getTurn, .nativeCall .rwlockTryWrOp] ++ schedPutTurnEvents log_sync

/-- The native calls a trace performs, in order. -/
def nativeCallsOf (tr : List Ev) : List NativeOp :=
  tr.filterMap fun e =>
    match e with
    | .nativeCall op => some op
    | _ => none

/-! ## errno discipline around turn transitions
(record-runtime.cpp:284-291, 322-353) -/

/-- `sched_timer_end` (the body of `SCHED_PUT_TURN`,
record-runtime.cpp:322-338) as a transformer of `(errno, rest-of-state)`.
The inner operations — `update_time`, `incTurnCount`, `Logger::logSync`,
`putTurn` — are arbitrary state transformers that may clobber errno; the
wrapper saves `backup_errno = errno` first and stores it back after
`putTurn`. -/
def sched_timer_end {σ : Type} (log_sync : Bool)
    (updateTimeOp incTurnOp logOp putTurnOp : Nat × σ → Nat × σ)
    (s : Nat × σ) : Nat × σ :=
  let backup := s.1
  let s1 := if log_sync then logOp (incTurnOp (updateTimeOp s))
            else incTurnOp s
  let s2 := putTurnOp s1
  (backup, s2.2)

/-- `sched_thread_end` (record-runtime.cpp:340-353): same errno save/restore
around `incTurnCount`, logging, and `putTurn(end_of_thread=true)`. -/
def sched_thread_end {σ : Type} (log_sync : Bool)
    (updateTimeOp incTurnOp logOp putTurnEndOp : Nat × σ → Nat × σ)
    (s : Nat × σ) : Nat × σ :=
  let backup := s.1
  let s1 := if log_sync then logOp (incTurnOp (updateTimeOp s))
            else incTurnOp s
  let s2 := putTurnEndOp s1
  (backup, s2.2)

/-- `BLOCK_TIMER_END` (record-runtime.cpp:284-291): save
`backup_errno = errno`, perform `_S::wakeup()` when `interProEnd()` holds,
then restore errno. -/
def BLOCK_TIMER_END {σ : Type} (interProEnd : Bool)
    (wakeupOp : Nat × σ → Nat × σ) (s : Nat × σ) : Nat × σ :=
  let backup := s.1
  let s1 := if interProEnd then wakeupOp s else s
  (backup, s1.2)

/-! ## Timed condvar wait (`RecorderRT::pthreadCondTimedWait`,
record-runtime.cpp:1212-1261) -/

/-- The base-time prelude shared by `pthreadCondTimedWait`, `semTimedWait`
and `pthreadMutexTimedLock`: when the per-thread `my_base_time` has never
been set (`tv_sec == 0`), print a warning and use the current wall clock
(`clock_gettime(CLOCK_REALTIME)`) as `cur_time`; otherwise use the base
time.  Returns `(warned, cur_time)`. -/
def timedPreludeBase (my_base_time wall_clock : timespec) : Bool × timespec :=
  if my_base_time.tv_sec = 0 then (true, wall_clock) else (false, my_base_time)

/-- Deterministic-region body of `RecorderRT::pthreadCondTimedWait`.  A null
`abstime` delegates to `pthreadCondWait` (which returns 0).  Otherwise the
relative interval `time_diff(cur_time, abstime)` is converted by
`relTimeToTurn` — whose `exit(1)` when `launch_idle_thread` is off is the
`none` outcome — the thread waits on the condvar channel until the deadline
(`w` is the wait's outcome), re-acquires the user mutex through
`pthreadMutexLockHelper` (oracle `relock`; an assertion failure or a stuck
relock also yields no return), and returns `saved_ret` — `ETIMEDOUT` when
the wait timed out, 0 otherwise — paired here with the `warned` flag. -/
def pthreadCondTimedWait (my_base_time wall_clock : timespec)
    (abstime : Option timespec) (launch_idle_thread : Bool)
    (nanosec_per_turn nthread : Nat) (w : WaitR)
    (relock : List (TryR × WaitR)) : Option (Bool × Int) :=
  match abstime with
  | none => some (false, 0)
  | some abst =>
    let p := timedPreludeBase my_base_time wall_clock
    let rel := time_diff p.2 abst
    match relTimeToTurn launch_idle_thread nanosec_per_turn nthread
        (some rel) with
    | none => none
    | some _ =>
      let saved_ret : Int :=
        match w with
        | .timedout => Int.ofNat ETIMEDOUT
        | .ok => 0
      match pthreadMutexLockHelper relock with
      | .ret _ => some (p.1, saved_ret)
      | .assertAbort => none
      | .diverge => none

/-! ## The record-mode runtime as a transition system

The wrappers of record-runtime.cpp all follow one skeleton — `getTurn`,
protocol under the turn, `incTurnCount` + log append, `putTurn` — on top of
the round-robin turn scheduler.

Modelled from the spec: `record-scheduler.cpp` (class `RRScheduler`) is not
under `src/`; its run queue, wait queue and turn token are modelled from
spec §4.B — strict FIFO run queue whose head owns the turn, `putTurn`
rotates head to tail, `wait(chan)` moves self to the wait queue keyed by
channel, `signal(chan)` moves the first waiter on `chan` back to the run
queue's tail while the signaller holds the turn. -/

/-- A synchronization operation of an application thread, as seen by its
wrapper: a generic sync op that logs `(op_code, key_arg)` and passes the
turn, a `wait` on a channel, or a `signal` of a channel. -/
inductive Op where
  | syncOp (code : Nat) (arg : Nat)
  | waitOp (chan : Nat)
  | signalOp (chan : Nat)
deriving DecidableEq, Repr

/-- A log record `(turn_number, thread_id, op_code, key_arg)` (§4.H). -/
structure LogRec where
  turn : Nat
  tid : Nat
  code : Nat
  arg : Nat
deriving DecidableEq, Repr

/-- Distinguished op codes the scheduler logs for wait/signal events. -/
def WAIT_CODE : Nat := 1000
def SIGNAL_CODE : Nat := 1001

/-- State of the record-mode runtime: the FIFO run queue of thread ids (the
head owns the turn token), the FIFO wait queue of `(channel, thread)` pairs,
each thread's remaining program, the turn counter, and the log. -/
structure MachState where
  runq : List Nat
  waitq : List (Nat × Nat)
  progs : List (List Op)
  turn : Nat
  log : List LogRec
deriving DecidableEq, Repr

/-- Remove the first waiter on channel `chan` from the wait queue, returning
it and the remaining queue (`signal` wakes the earliest waiter on the
channel, §4.B fairness). -/
def takeFirstWaiter (chan : Nat) :
    List (Nat × Nat) → Option (Nat × List (Nat × Nat))
  | [] => none
  | (c, t) :: rest =>
    if c = chan then some (t, rest)
    else (takeFirstWaiter chan rest).map fun r => (r.1, (c, t) :: r.2)

/-- One step of the runtime under an OS scheduling choice: the host OS picks
thread `choice` to run next.  Only the head of the run queue can complete a
wrapper (`getTurn` blocks everyone else), so a pick of any other thread
changes nothing.  The head thread executes its next operation: it appends
the log record under the current turn number, increments the turn counter,
and performs the scheduler action of the op — rotate to the tail for a
generic sync op, move to the wait queue for `waitOp`, wake the first waiter
on the channel (before its own `putTurn`) for `signalOp`.  A thread whose
program is exhausted retires (`putTurn(end_of_thread=true)`). -/
def step (s : MachState) (choice : Nat) : MachState :=
  match s.runq with
  | [] => s
  | head :: rest =>
    if choice = head then
      match (s.progs.getD head []) with
      | [] => { s with runq := rest }
      | op :: tl =>
        let progs := s.progs.set head tl
        match op with
        | .syncOp code arg =>
          { runq := rest ++ [head], waitq := s.waitq, progs := progs
            turn := s.turn + 1
            log := s.log ++ [⟨s.turn, head, code, arg⟩] }
        | .waitOp chan =>
          { runq := rest, waitq := s.waitq ++ [(chan, head)], progs := progs
            turn := s.turn + 1
            log := s.log ++ [⟨s.turn, head, WAIT_CODE, chan⟩] }
        | .signalOp chan =>
          match takeFirstWaiter chan s.waitq with
          | some (w, waitq) =>
            { runq := rest ++ [w, head], waitq := waitq, progs := progs
              turn := s.turn + 1
              log := s.log ++ [⟨s.turn, head, SIGNAL_CODE, chan⟩] }
          | none =>
            { runq := rest ++ [head], waitq := s.waitq, progs := progs
              turn := s.turn + 1
              log := s.log ++ [⟨s.turn, head, SIGNAL_CODE, chan⟩] }
    else s

/-- A complete run: fold the OS's choice sequence over `step`. -/
def run (s : MachState) : List Nat → MachState
  | [] => s
  | c :: cs => run (step s c) cs

/-- The unique effective step: the one the head of the run queue takes. -/
def stepDet (s : MachState) : MachState :=
  match s.runq with
  | [] => s
  | head :: _ => step s head

/-- A run is complete when every thread has finished: nobody is left
runnable or waiting. -/
def done (s : MachState) : Prop :=
  s.runq = [] ∧ s.waitq = []

instance (s : MachState) : Decidable (done s) := by
  unfold done; infer_instance

/-- Initial state of a program `progs` (thread `i` runs `progs[i]`): all
threads in the run queue in logical-id order, empty wait queue, turn 0,
empty log. -/
def initState (progs : List (List Op)) : MachState :=
  { runq := List.range progs.length, waitq := [], progs := progs
    turn := 0, log := [] }

/-! ## Theorems -/

theorem toUInt64Nat_of_small {ns : Int} (h0 : 0 ≤ ns) (h1 : ns < 2 ^ 64) :
    toUInt64Nat ns = ns.toNat := by
  unfold toUInt64Nat
  rw [Int.emod_eq_of_lt h0 h1]

/-- C2: the claim as written asserts the conversion result "never exceeds
1,000,000 turns"; with 200,000 threads and a zero interval the code returns
`5 * 200000 + 1 = 1000001 > 1000000`, because the lower bound
`5 * nthread + 1` is applied after the `MAX_REL` cap. -/
theorem relTimeToTurn_exceeds_MAX_REL :
    relTimeToTurn true 1000 200000 (some ⟨0, 0⟩) = some 1000001 ∧
      MAX_REL < 1000001 := by
  constructor
  · rfl
  · decide

/-- C2 (amended): for a valid relative timespec, `relTimeToTurn` returns
`max (5*nthread+1) (min (ns / nanosec_per_turn) MAX_REL)`: never below
`5*nthread+1`, never above `max (5*nthread+1) MAX_REL)`, equal to
`ns / nanosec_per_turn` when that quotient lies between the bounds; a 2 ms
interval at `nanosec_per_turn = 1000` gives `max (5*nthread+1) 2000`
turns. -/
theorem relTimeToTurn_clamp (nspt nthread : Nat) (rt : timespec)
    (_hnspt : 0 < nspt) (hsec : 0 ≤ rt.tv_sec) (hnsec : 0 ≤ rt.tv_nsec)
    (hsmall : totalNs rt < 2 ^ 64) :
    relTimeToTurn true nspt nthread (some rt) =
      some (max (5 * nthread + 1) (min ((totalNs rt).toNat / nspt) MAX_REL)) ∧
    (∀ r, relTimeToTurn true nspt nthread (some rt) = some r →
      5 * nthread + 1 ≤ r ∧ r ≤ max (5 * nthread + 1) MAX_REL ∧
      (5 * nthread + 1 ≤ (totalNs rt).toNat / nspt ∧
        (totalNs rt).toNat / nspt ≤ MAX_REL → r = (totalNs rt).toNat / nspt)) ∧
    relTimeToTurn true 1000 nthread (some ⟨0, 2000000⟩) =
      some (max (5 * nthread + 1) 2000) := by
  have hns : 0 ≤ totalNs rt := by
    unfold totalNs
    positivity
  have hmain : relTimeToTurn true nspt nthread (some rt) =
      some (max (5 * nthread + 1)
        (min ((totalNs rt).toNat / nspt) MAX_REL)) := by
    simp only [relTimeToTurn, time2turn, toUInt64Nat_of_small hns hsmall,
      Bool.not_true, Bool.false_eq_true, if_false, Option.map_some',
      Option.some.injEq, MAX_REL]
    split_ifs <;> omega
  refine ⟨hmain, ?_, ?_⟩
  · intro r hr
    rw [hmain] at hr
    have hr' := Option.some.inj hr
    refine ⟨?_, ?_, ?_⟩ <;> omega
  · simp only [relTimeToTurn, time2turn, totalNs, toUInt64Nat, MAX_REL]
    norm_num
    split_ifs <;> omega

/-- C2 witness: the amended clamp theorem at `nanosec_per_turn = 1000`,
`nthread = 2`, `reltime = 2 ms`. -/
theorem relTimeToTurn_clamp_witness :
    relTimeToTurn true 1000 2 (some ⟨0, 2000000⟩) =
      some (max (5 * 2 + 1) (min ((totalNs ⟨0, 2000000⟩).toNat / 1000)
        MAX_REL)) ∧
    (∀ r, relTimeToTurn true 1000 2 (some ⟨0, 2000000⟩) = some r →
      5 * 2 + 1 ≤ r ∧ r ≤ max (5 * 2 + 1) MAX_REL ∧
      (5 * 2 + 1 ≤ (totalNs ⟨0, 2000000⟩).toNat / 1000 ∧
        (totalNs ⟨0, 2000000⟩).toNat / 1000 ≤ MAX_REL →
        r = (totalNs ⟨0, 2000000⟩).toNat / 1000)) ∧
    relTimeToTurn true 1000 2 (some ⟨0, 2000000⟩) =
      some (max (5 * 2 + 1) 2000) :=
  relTimeToTurn_clamp 1000 2 ⟨0, 2000000⟩ (by decide) (by decide) (by decide)
    (by decide)

/-- Each of the first `count - 1` arrivals takes the wait branch, and the
last arrival takes the serial branch: iterating the barrier-wait body `n`
times from `narrived = j` with `j + n = count` yields `n - 1` zero returns
followed by one `PTHREAD_BARRIER_SERIAL_THREAD`, with `narrived` reset
to 0. -/
theorem barrierRounds_succ (n : Nat) (b : barrier_t) :
    barrierRounds (n + 1) b =
      (pthreadBarrierWait b).bind fun r =>
        (barrierRounds n r.1).map fun s => (s.1, r.2 :: s.2) := rfl

theorem barrierRounds_from (n : Nat) :
    ∀ j count : Nat, 1 ≤ n → j + n = count →
    barrierRounds n ⟨count, j⟩ =
      some (⟨count, 0⟩,
        List.replicate (n - 1) ((0 : Int), [BarAction.waitOnBarrier]) ++
          [(PTHREAD_BARRIER_SERIAL_THREAD,
            [BarAction.signalAll, BarAction.putTurn, BarAction.getTurn])]) := by
  induction n with
  | zero => intro j count h; omega
  | succ m ih =>
    intro j count _ hsum
    rcases Nat.eq_zero_or_pos m with hm | hm
    · subst hm
      have hcount : count = j + 1 := by omega
      subst hcount
      simp [barrierRounds, pthreadBarrierWait]
    · have hlt : j + 1 < count := by omega
      obtain ⟨k, rfl⟩ : ∃ k, m = k + 1 := ⟨m - 1, by omega⟩
      rw [barrierRounds_succ]
      have hbw : pthreadBarrierWait ⟨count, j⟩ =
          some (⟨count, j + 1⟩, 0, [BarAction.waitOnBarrier]) := by
        simp only [pthreadBarrierWait]
        rw [if_neg (by omega), if_neg (by omega)]
      rw [hbw, Option.some_bind, ih (j + 1) count (by omega) (by omega)]
      simp [List.replicate_succ]

/-- C3: in a group of `count` threads completing `pthread_barrier_wait` on a
barrier initialized with `count`, the first `count - 1` arrivers return 0
after a `wait(barrier)` of unbounded deadline, the last arriver returns
`PTHREAD_BARRIER_SERIAL_THREAD` after resetting `narrived` to 0, signalling
all waiters on the barrier channel and cycling the turn (`putTurn`
immediately followed by `getTurn`); exactly one of the `count` return
values is `PTHREAD_BARRIER_SERIAL_THREAD` and the other `count - 1`
are 0. -/
theorem pthreadBarrierWait_serial (count : Nat) (h : 1 ≤ count) :
    barrierRounds count ⟨count, 0⟩ =
      some (⟨count, 0⟩,
        List.replicate (count - 1) ((0 : Int), [BarAction.waitOnBarrier]) ++
          [(PTHREAD_BARRIER_SERIAL_THREAD,
            [BarAction.signalAll, BarAction.putTurn, BarAction.getTurn])]) ∧
    (∀ bf results, barrierRounds count ⟨count, 0⟩ = some (bf, results) →
      results.length = count ∧ bf.narrived = 0 ∧
      (results.map Prod.fst).count PTHREAD_BARRIER_SERIAL_THREAD = 1 ∧
      (results.map Prod.fst).count 0 = count - 1) := by
  have hmain := barrierRounds_from count 0 count h (by omega)
  refine ⟨hmain, ?_⟩
  intro bf results hr
  rw [hmain] at hr
  obtain ⟨h1, h2⟩ := Prod.mk.injEq _ _ _ _ ▸ Option.some.inj hr
  subst h1
  refine ⟨?_, rfl, ?_, ?_⟩
  · rw [← h2]
    simp
    omega
  · rw [← h2]
    simp only [List.map_append, List.count_append, List.map_replicate,
      List.map_cons, List.map_nil]
    rw [List.count_replicate]
    simp [PTHREAD_BARRIER_SERIAL_THREAD, List.count_singleton]
  · rw [← h2]
    simp only [List.map_append, List.count_append, List.map_replicate,
      List.map_cons, List.map_nil]
    rw [List.count_replicate]
    simp [PTHREAD_BARRIER_SERIAL_THREAD, List.count_singleton]

/-- C3 witness: a barrier of 3. -/
theorem pthreadBarrierWait_serial_witness :
    barrierRounds 3 ⟨3, 0⟩ =
      some (⟨3, 0⟩,
        List.replicate (3 - 1) ((0 : Int), [BarAction.waitOnBarrier]) ++
          [(PTHREAD_BARRIER_SERIAL_THREAD,
            [BarAction.signalAll, BarAction.putTurn, BarAction.getTurn])]) ∧
    (∀ bf results, barrierRounds 3 ⟨3, 0⟩ = some (bf, results) →
      results.length = 3 ∧ bf.narrived = 0 ∧
      (results.map Prod.fst).count PTHREAD_BARRIER_SERIAL_THREAD = 1 ∧
      (results.map Prod.fst).count 0 = 3 - 1) :=
  pthreadBarrierWait_serial 3 (by decide)

theorem pthreadMutexLockHelper_skip (l : List (TryR × WaitR)) :
    ∀ pre : List (TryR × WaitR), (∀ x ∈ pre, x = (TryR.busy, WaitR.ok)) →
    pthreadMutexLockHelper (pre ++ l) = pthreadMutexLockHelper l := by
  intro pre
  induction pre with
  | nil => intro _; rfl
  | cons p t ih =>
    intro hp
    have hhead := hp p (by simp)
    subst hhead
    simpa [pthreadMutexLockHelper] using ih fun x hx => hp x (by simp [hx])

theorem semTimedWaitLoop_skip (l : List (TryR × WaitR)) :
    ∀ pre : List (TryR × WaitR), (∀ x ∈ pre, x = (TryR.busy, WaitR.ok)) →
    semTimedWaitLoop (pre ++ l) = semTimedWaitLoop l := by
  intro pre
  induction pre with
  | nil => intro _; rfl
  | cons p t ih =>
    intro hp
    have hhead := hp p (by simp)
    subst hhead
    simpa [semTimedWaitLoop] using ih fun x hx => hp x (by simp [hx])

/-- C4: when the scheduler-level wait on the sync object's channel returns
`TIMEOUT` (after any number of busy trylocks whose waits were signalled),
`pthread_mutex_timedlock` returns `ETIMEDOUT`, and `sem_timedwait` returns
`-1` with the error channel set to `ETIMEDOUT`; a wait that returns OK
makes the wrapper retry the native try-operation. -/
theorem timedWrappers_surface_timeout (pre post : List (TryR × WaitR))
    (hpre : ∀ x ∈ pre, x = (TryR.busy, WaitR.ok)) :
    pthreadMutexTimedLock (pre ++ (TryR.busy, WaitR.timedout) :: post) =
      .ret (Int.ofNat ETIMEDOUT) ∧
    semTimedWaitLoop (pre ++ (TryR.busy, WaitR.timedout) :: post) =
      .ret (-1) ETIMEDOUT ∧
    (∀ rest, pthreadMutexLockHelper ((TryR.busy, WaitR.ok) :: rest) =
      pthreadMutexLockHelper rest) := by
  refine ⟨?_, ?_, fun rest => rfl⟩
  · unfold pthreadMutexTimedLock
    rw [pthreadMutexLockHelper_skip _ pre hpre]
    rfl
  · rw [semTimedWaitLoop_skip _ pre hpre]
    rfl

/-- C4 witness: one trylock finds the mutex busy, the wait on the channel
reaches its deadline. -/
theorem timedWrappers_surface_timeout_witness :
    pthreadMutexTimedLock
        ([(TryR.busy, WaitR.ok)] ++ (TryR.busy, WaitR.timedout) :: []) =
      .ret (Int.ofNat ETIMEDOUT) ∧
    semTimedWaitLoop
        ([(TryR.busy, WaitR.ok)] ++ (TryR.busy, WaitR.timedout) :: []) =
      .ret (-1) ETIMEDOUT ∧
    (∀ rest, pthreadMutexLockHelper ((TryR.busy, WaitR.ok) :: rest) =
      pthreadMutexLockHelper rest) :=
  timedWrappers_surface_timeout [(TryR.busy, WaitR.ok)] [] (by decide)

/-- C5 counterexample: the claim says the idle thread blocks on the internal
condvar exactly when the run queue contains only itself; the code does the
opposite — with a run-queue size of 1 (idle thread alone) it takes the
`putTurn` branch, and it calls `idleThreadCondWait` precisely when at least
one other thread is in the run queue. -/
theorem idle_cond_wait_branch_flipped :
    idle_cond_wait 1 = IdleAction.putTurn ∧
    idle_cond_wait 1 ≠ IdleAction.idleThreadCondWait ∧
    idle_cond_wait 2 = IdleAction.idleThreadCondWait ∧
    idle_cond_wait 2 ≠ IdleAction.putTurn := by
  decide

/-- C5 (amended): in every invocation of `idle_cond_wait`, if at least one
thread besides the idle thread is in the run queue the idle thread releases
the turn and blocks on the internal condvar (`idleThreadCondWait`);
if the run queue contains only the idle thread itself it just yields the
turn via `putTurn`. -/
theorem idle_cond_wait_spec (runq_size : Nat) :
    (2 ≤ runq_size → idle_cond_wait runq_size =
      IdleAction.idleThreadCondWait) ∧
    (runq_size < 2 → idle_cond_wait runq_size = IdleAction.putTurn) := by
  constructor
  · intro h
    simp [idle_cond_wait, h]
  · intro h
    simp [idle_cond_wait]
    omega

/-- C5 witness: run queue of 1 (idle thread alone) and of 2. -/
theorem idle_cond_wait_spec_witness :
    idle_cond_wait 1 = IdleAction.putTurn ∧
    idle_cond_wait 2 = IdleAction.idleThreadCondWait :=
  ⟨(idle_cond_wait_spec 1).2 (by decide), (idle_cond_wait_spec 2).1 (by decide)⟩

/-- C6: in every deterministic-region call of the
`pthread_rwlock_tryrdlock` wrapper, the single native try-operation it
performs is `pthread_rwlock_trywrlock`, not the read-lock trylock the spec
describes; the source marks this with "FIXME now using wrlock for all
rdlock". -/
theorem tryrdlock_uses_trywrlock (log_sync : Bool) :
    nativeCallsOf (pthreadRWLockTryRdLockTrace log_sync) =
      [NativeOp.rwlockTryWrOp] ∧
    NativeOp.rwlockTryRdOp ∉ nativeCallsOf
      (pthreadRWLockTryRdLockTrace log_sync) := by
  cases log_sync <;> exact ⟨rfl, by decide⟩

/-- C7: in the deterministic path of `pthread_mutex_unlock` and `sem_post`,
the native release happens first, then the scheduler `signal` on the
object's channel is issued strictly before `putTurn`, while still holding
the turn acquired by the leading `getTurn`. -/
theorem release_signals_before_putTurn (log_sync : Bool) (mu sem : Nat) :
    (∃ pre post,
      pthreadMutexUnlockTrace log_sync mu = pre ++ Ev.signalChan mu :: post ∧
      Ev.putTurn ∉ pre ∧ Ev.getTurn ∈ pre ∧
      Ev.nativeCall NativeOp.mutexUnlockOp ∈ pre ∧ Ev.putTurn ∈ post) ∧
    (∃ pre post,
      semPostTrace log_sync sem = pre ++ Ev.signalChan sem :: post ∧
      Ev.putTurn ∉ pre ∧ Ev.getTurn ∈ pre ∧
      Ev.nativeCall NativeOp.semPostOp ∈ pre ∧ Ev.putTurn ∈ post) := by
  cases log_sync <;>
    exact ⟨⟨[Ev.getTurn, Ev.nativeCall NativeOp.mutexUnlockOp], _,
        rfl, by decide, by decide, by decide, by decide⟩,
      ⟨[Ev.getTurn, Ev.nativeCall NativeOp.semPostOp], _,
        rfl, by decide, by decide, by decide, by decide⟩⟩

/-- C8 counterexample: the claim says a physical-to-logical conversion
attempted without the idle-thread calibration warns, falls back to the wall
clock, and the run proceeds; but `time2turn` calls `exit(1)` when
`launch_idle_thread` is off, so a `pthread_cond_timedwait` with no base
time set and no idle thread aborts instead of proceeding. -/
theorem no_idle_thread_aborts :
    pthreadCondTimedWait ⟨0, 0⟩ ⟨100, 0⟩ (some ⟨100, 2000000⟩) false 1000 2
        WaitR.timedout [(TryR.ok, WaitR.ok)] = none ∧
    time2turn false 1000 2000000 = none := ⟨rfl, rfl⟩

/-- C8 (amended): a timed wrapper invoked with an absolute deadline while no
per-thread base time is set logs a warning and falls back to the current
wall clock, and — provided `launch_idle_thread` is on — the run proceeds;
a physical-to-logical conversion attempted without the idle thread warns
and exits (the run aborts). -/
theorem no_base_time_fallback (base wall abst : timespec)
    (nspt nthread : Nat) (w : WaitR) (hbase : base.tv_sec = 0) :
    timedPreludeBase base wall = (true, wall) ∧
    (∃ v, pthreadCondTimedWait base wall (some abst) true nspt nthread w
      [(TryR.ok, WaitR.ok)] = some (true, v)) ∧
    (∀ ns, time2turn false nspt ns = none) := by
  have hprelude : timedPreludeBase base wall = (true, wall) := by
    simp [timedPreludeBase, hbase]
  refine ⟨hprelude, ?_, fun ns => rfl⟩
  unfold pthreadCondTimedWait
  rw [hprelude]
  simp only [relTimeToTurn, time2turn, Bool.not_true, Bool.false_eq_true,
    if_false, Option.map_some']
  cases w
  · exact ⟨0, rfl⟩
  · exact ⟨Int.ofNat ETIMEDOUT, rfl⟩

/-- C8 witness: base time unset, wall clock 100 s, deadline 100.002 s. -/
theorem no_base_time_fallback_witness :
    timedPreludeBase ⟨0, 0⟩ ⟨100, 0⟩ = (true, ⟨100, 0⟩) ∧
    (∃ v, pthreadCondTimedWait ⟨0, 0⟩ ⟨100, 0⟩ (some ⟨100, 2000000⟩) true
      1000 2 WaitR.timedout [(TryR.ok, WaitR.ok)] = some (true, v)) ∧
    (∀ ns, time2turn false 1000 ns = none) :=
  no_base_time_fallback ⟨0, 0⟩ ⟨100, 0⟩ ⟨100, 2000000⟩ 1000 2
    WaitR.timedout rfl

/-- C9: for every initial errno value and arbitrary errno effects of the
inner operations (`update_time`, `incTurnCount`, the log append, `putTurn`,
`wakeup`), the errno component after `sched_timer_end` (every wrapper's
`SCHED_PUT_TURN`), after `sched_thread_end`, and after `BLOCK_TIMER_END`
(the wakeup of the block/wakeup protocol) equals the errno value before the
transition began. -/
theorem errno_preserved_across_turn_transitions (σ : Type) (log_sync b : Bool)
    (updateTimeOp incTurnOp logOp putTurnOp : Nat × σ → Nat × σ)
    (s : Nat × σ) :
    (sched_timer_end log_sync updateTimeOp incTurnOp logOp putTurnOp s).1 =
      s.1 ∧
    (sched_thread_end log_sync updateTimeOp incTurnOp logOp putTurnOp s).1 =
      s.1 ∧
    (BLOCK_TIMER_END b putTurnOp s).1 = s.1 :=
  ⟨rfl, rfl, rfl⟩

theorem pthreadMutexLockHelper_no_abort (tr : List (TryR × WaitR))
    (h : ∀ x ∈ tr, x.1 ≠ TryR.otherFailure) :
    pthreadMutexLockHelper tr ≠ HelperRes.assertAbort := by
  induction tr with
  | nil => simp [pthreadMutexLockHelper]
  | cons p t ih =>
    obtain ⟨tp, wp⟩ := p
    have h1 := h (tp, wp) (by simp)
    cases tp with
    | ok => simp [pthreadMutexLockHelper]
    | otherFailure => exact absurd rfl h1
    | busy =>
      cases wp with
      | timedout => simp [pthreadMutexLockHelper]
      | ok =>
        simpa [pthreadMutexLockHelper] using
          ih fun x hx => h x (by simp [hx])

/-- C10: the deterministic path of `pthread_mutex_lock` ignores the lock
helper's return value and returns 0, so it never surfaces a nonzero error
code; when every native trylock outcome is success or `EBUSY` the wrapper
never trips the assertion; and a trylock outcome other than success/`EBUSY`
(reached after busy/signalled rounds) makes the assertion fire and abort. -/
theorem pthreadMutexLock_returns_zero (tr : List (TryR × WaitR)) :
    (∀ r, pthreadMutexLock tr = .ret r → r = 0) ∧
    ((∀ x ∈ tr, x.1 ≠ TryR.otherFailure) →
      pthreadMutexLock tr ≠ HelperRes.assertAbort) ∧
    (∀ (pre : List (TryR × WaitR)) (w : WaitR) (post : List (TryR × WaitR)),
      (∀ x ∈ pre, x = (TryR.busy, WaitR.ok)) →
      pthreadMutexLock (pre ++ (TryR.otherFailure, w) :: post) =
        HelperRes.assertAbort) := by
  refine ⟨?_, ?_, ?_⟩
  · intro r hr
    unfold pthreadMutexLock at hr
    cases h : pthreadMutexLockHelper tr <;> rw [h] at hr <;>
      simp_all
  · intro h
    have hno := pthreadMutexLockHelper_no_abort tr h
    unfold pthreadMutexLock
    cases hh : pthreadMutexLockHelper tr <;> simp_all
  · intro pre w post hpre
    unfold pthreadMutexLock
    rw [pthreadMutexLockHelper_skip _ pre hpre]
    rfl

/-- C10 witness: a busy-then-success trylock run returns 0 without abort,
and a first trylock failing with an unexpected error aborts. -/
theorem pthreadMutexLock_returns_zero_witness :
    pthreadMutexLock [(TryR.busy, WaitR.ok), (TryR.ok, WaitR.ok)] ≠
      HelperRes.assertAbort ∧
    pthreadMutexLock ([] ++ (TryR.otherFailure, WaitR.ok) :: []) =
      HelperRes.assertAbort :=
  ⟨(pthreadMutexLock_returns_zero
      [(TryR.busy, WaitR.ok), (TryR.ok, WaitR.ok)]).2.1 (by decide),
    (pthreadMutexLock_returns_zero
      ([] ++ (TryR.otherFailure, WaitR.ok) :: [])).2.2 [] WaitR.ok []
      (by simp)⟩

theorem step_runq_nil {s : MachState} (h : s.runq = []) (c : Nat) :
    step s c = s := by
  unfold step
  rw [h]

theorem stepDet_runq_nil {s : MachState} (h : s.runq = []) :
    stepDet s = s := by
  unfold stepDet
  rw [h]

/-- Only the head of the run queue can move: an OS step either changes
nothing (the chosen thread is blocked in `getTurn`) or performs the unique
enabled wrapper transition `stepDet`. -/
theorem step_cases (s : MachState) (c : Nat) :
    step s c = s ∨ step s c = stepDet s := by
  cases hq : s.runq with
  | nil => exact Or.inl (step_runq_nil hq c)
  | cons head rest =>
    by_cases hc : c = head
    · right
      subst hc
      unfold stepDet step
      rw [hq]
    · left
      unfold step
      rw [hq]
      simp [hc]

theorem run_of_runq_nil {s : MachState} (h : s.runq = []) :
    ∀ cs, run s cs = s := by
  intro cs
  induction cs with
  | nil => rfl
  | cons c t ih =>
    simp only [run, step_runq_nil h c]
    exact ih

/-- Any OS choice sequence that drives the system to completion factors
through the unique enabled step: its effect equals some strictly shorter
choice sequence applied after `stepDet`. -/
theorem run_done_decompose :
    ∀ (cs : List Nat) (s : MachState), s.runq ≠ [] → done (run s cs) →
    ∃ cs', cs'.length < cs.length ∧ run s cs = run (stepDet s) cs' := by
  intro cs
  induction cs with
  | nil =>
    intro s hne hdone
    exact absurd hdone.1 hne
  | cons c t ih =>
    intro s hne hdone
    rcases step_cases s c with hst | hdt
    · have hrun : run s (c :: t) = run s t := by
        simp only [run, hst]
      rw [hrun] at hdone
      obtain ⟨cs', hlen, heq⟩ := ih s hne hdone
      exact ⟨cs', Nat.lt_succ_of_lt hlen, by rw [hrun, heq]⟩
    · exact ⟨t, Nat.lt_succ_self _, by simp only [run, hdt]⟩

/-- Stutter-insensitivity of complete runs: any two OS choice sequences
that both drive the machine to completion reach the same final state. -/
theorem run_deterministic :
    ∀ (cs1 : List Nat) (s : MachState) (cs2 : List Nat),
    done (run s cs1) → done (run s cs2) → run s cs1 = run s cs2 := by
  intro cs1
  induction cs1 with
  | nil =>
    intro s cs2 h1 _
    exact (run_of_runq_nil h1.1 cs2).symm
  | cons c t ih =>
    intro s cs2 h1 h2
    by_cases hq : s.runq = []
    · have hrun : run s (c :: t) = run s t := by
        simp only [run, step_runq_nil hq c]
      rw [hrun] at h1 ⊢
      exact ih s cs2 h1 h2
    · rcases step_cases s c with hst | hdt
      · have hrun : run s (c :: t) = run s t := by
          simp only [run, hst]
        rw [hrun] at h1 ⊢
        exact ih s cs2 h1 h2
      · have hrun : run s (c :: t) = run (stepDet s) t := by
          simp only [run, hdt]
        rw [hrun] at h1 ⊢
        obtain ⟨cs2', _, heq2⟩ := run_done_decompose cs2 s hq h2
        rw [heq2] at h2 ⊢
        exact ih (stepDet s) cs2' h1 h2

/-- C1: for any program and any two complete runs of the record-mode
runtime — the host OS's scheduling choices being arbitrary in each — the
logged sequence of `(turn_number, thread_id, op_code, key_args)` records
across the union of all threads is identical: the turn discipline makes the
log a function of the program alone. -/
theorem record_runtime_log_deterministic (progs : List (List Op))
    (cs1 cs2 : List Nat) (h1 : done (run (initState progs) cs1))
    (h2 : done (run (initState progs) cs2)) :
    (run (initState progs) cs1).log = (run (initState progs) cs2).log := by
  rw [run_deterministic cs1 (initState progs) cs2 h1 h2]

/-- C1 witness: two threads, two different OS schedules (the second one
attempts the non-head thread first), both complete; the logs coincide. -/
theorem record_runtime_log_deterministic_witness :
    done (run (initState [[Op.syncOp 7 1], [Op.syncOp 8 2]]) [0, 1, 0, 1]) ∧
    done (run (initState [[Op.syncOp 7 1], [Op.syncOp 8 2]])
      [1, 0, 1, 0, 1]) ∧
    (run (initState [[Op.syncOp 7 1], [Op.syncOp 8 2]]) [0, 1, 0, 1]).log =
      (run (initState [[Op.syncOp 7 1], [Op.syncOp 8 2]])
        [1, 0, 1, 0, 1]).log :=
  ⟨by decide, by decide,
    record_runtime_log_deterministic [[Op.syncOp 7 1], [Op.syncOp 8 2]]
      [0, 1, 0, 1] [1, 0, 1, 0, 1] (by decide) (by decide)⟩

end tern
